/-
Verification of the UIABot ticket workflow (src/bot) against its
natural-language specification.

The Python source is shallowly embedded: SQLite tables become lists of
records, each handler becomes a pure function from an input state to an
output state plus a list of observable effects (replies, manager
messages, engineer messages, scheduled/removed timer jobs), and the
external guidance generator is driven by an explicit outcome parameter.
String manipulation follows CPython semantics (str.split, str.strip,
str.lower, strptime) restricted to the ASCII inputs exercised here, and
is implemented over `List Char` by structural recursion so that every
definition evaluates inside the kernel.
-/

import Mathlib

namespace UIABot

/-! ## Python string primitives (over `List Char`) -/

/-- Python `str.strip()` whitespace test, restricted to the ASCII
whitespace characters. -/
def pyIsSpace (c : Char) : Bool :=
  c == ' ' || c == '\t' || c == '\n' || c == '\x0d' || c == '\x0b' || c == '\x0c'

/-- Python `str.strip()`: drop whitespace from both ends. -/
def pyStrip (s : List Char) : List Char :=
  ((s.dropWhile pyIsSpace).reverse.dropWhile pyIsSpace).reverse

/-- Python `str.split(sep)` for a one-character separator: split on every
occurrence, left to right. -/
def splitCharAux (sep : Char) : List Char → List Char → List (List Char)
  | [], acc => [acc.reverse]
  | c :: rest, acc =>
    if c == sep then acc.reverse :: splitCharAux sep rest []
    else splitCharAux sep rest (c :: acc)

def splitChar (sep : Char) (s : List Char) : List (List Char) :=
  splitCharAux sep s []

/-- Python `str.split(" - ")`: split on every non-overlapping occurrence of
the three-character separator, scanning left to right. -/
def splitSpDashAux : List Char → List Char → List (List Char)
  | [], acc => [acc.reverse]
  | ' ' :: '-' :: ' ' :: rest, acc => acc.reverse :: splitSpDashAux rest []
  | c :: rest, acc => splitSpDashAux rest (c :: acc)

def splitSpDash (s : List Char) : List (List Char) :=
  splitSpDashAux s []

/-- Python `"sep".join(parts)`. -/
def joinWith (sep : List Char) : List (List Char) → List Char
  | [] => []
  | [p] => p
  | p :: ps => p ++ sep ++ joinWith sep ps

/-- Python `str.lower()`, ASCII case folding (the roster names compared in
the verified scenarios are ASCII). -/
def pyLower (s : List Char) : List Char :=
  s.map Char.toLower

/-! ## Dates

`DATE(created_at)` values and `datetime.date` objects are calendar dates;
both SQLite's `BETWEEN` on ISO strings and Python's date comparison order
them lexicographically by (year, month, day). -/

structure Date where
  year : Nat
  month : Nat
  day : Nat
deriving Repr, DecidableEq

def dateLe (a b : Date) : Bool :=
  decide (a.year < b.year) ||
    (decide (a.year = b.year) &&
      (decide (a.month < b.month) ||
        (decide (a.month = b.month) && decide (a.day ≤ b.day))))

def dateLt (a b : Date) : Bool :=
  decide (a.year < b.year) ||
    (decide (a.year = b.year) &&
      (decide (a.month < b.month) ||
        (decide (a.month = b.month) && decide (a.day < b.day))))

theorem dateLe_of_not_lt (a b : Date) (h : dateLt b a = false) : dateLe a b = true := by
  simp only [dateLt, dateLe, Bool.or_eq_true, Bool.and_eq_true, decide_eq_true_eq,
    Bool.or_eq_false_iff, Bool.and_eq_false_iff, decide_eq_false_iff_not] at h ⊢
  omega

/-! ## `_parse_date_range` (handlers.py:598-608) and its strptime core -/

def digitsVal (cs : List Char) : Nat :=
  cs.foldl (fun acc c => acc * 10 + (c.toNat - 48)) 0

def isLeapYear (y : Nat) : Bool :=
  (y % 4 == 0 && y % 100 != 0) || (y % 400 == 0)

def daysInMonth (y m : Nat) : Nat :=
  if m == 2 then (if isLeapYear y then 29 else 28)
  else if m == 4 || m == 6 || m == 9 || m == 11 then 30
  else 31

/-- CPython `datetime.strptime(s, "%Y-%m-%d").date()`.  The strptime regex
is `(\d\d\d\d)-(1[0-2]|0[1-9]|[1-9])-(3[01]|[12]\d|0[1-9]|[1-9])`, matched
against the whole string: the year is exactly four digits, month and day
are one or two digits (a single digit need not be zero-padded), and the
captured values must form a valid calendar date (`datetime` also requires
year ≥ 1). -/
def strptimeDate (s : List Char) : Option Date :=
  match splitChar '-' s with
  | [y, m, d] =>
    if y.length == 4 && y.all Char.isDigit
        && decide (1 ≤ m.length) && decide (m.length ≤ 2) && m.all Char.isDigit
        && decide (1 ≤ d.length) && decide (d.length ≤ 2) && d.all Char.isDigit then
      let yv := digitsVal y
      let mv := digitsVal m
      let dv := digitsVal d
      if decide (1 ≤ yv) && decide (1 ≤ mv) && decide (mv ≤ 12)
          && decide (1 ≤ dv) && decide (dv ≤ daysInMonth yv mv) then
        some ⟨yv, mv, dv⟩
      else none
    else none
  | _ => none

/-- `BotHandler._parse_date_range`: replace en-dashes with hyphens, split on
`" - "`, strip both parts, parse each with strptime `%Y-%m-%d`, and raise
(here: `none`) unless there are exactly two parts, both parse, and
start ≤ end. -/
def parse_date_range (text : String) : Option (Date × Date) :=
  let cleaned := text.toList.map (fun c => if c == '–' then '-' else c)
  match (splitSpDash cleaned).map pyStrip with
  | [a, b] =>
    match strptimeDate a, strptimeDate b with
    | some s, some e => if dateLt e s then none else some (s, e)
    | _, _ => none
  | _ => none

/-! ## Data model (database.py)

One row of the `calls` table.  `created_date` is `DATE(created_at)`;
`updated_at` and the raw timestamp are not modeled (no claim reads them).
SQLite ids are integers (`INTEGER PRIMARY KEY AUTOINCREMENT`). -/

structure Call where
  id : Int
  telegram_user_id : Int
  user_full_name : String
  department : String
  issue_type : String
  employee_code : Option String
  basic_guidance : String
  issue_description : Option String
  ai_guidance : Option String
  status : String
  assigned_engineer : Option String
  created_date : Date
deriving Repr, DecidableEq

/-- One row of the `employee_codes` table. -/
structure EmployeeRecord where
  code : String
  full_name : String
  department : Option String
deriving Repr, DecidableEq

/-- The SQLite database plus the clock it consults: `today` is the current
date in the fixed reference timezone (`datetime.now(timezone.utc).date()`
for loads, `CURRENT_TIMESTAMP` for `created_at`), and `next_id` is the
AUTOINCREMENT counter. -/
structure Db where
  calls : List Call
  employee_codes : List EmployeeRecord
  next_id : Int
  today : Date
deriving Repr, DecidableEq

/-! ## Database operations (database.py) -/

def has_employee_codes (db : Db) : Bool :=
  !db.employee_codes.isEmpty

def is_employee_code_allowed (db : Db) (code : String) : Bool :=
  db.employee_codes.any (fun e => e.code == code)

def get_employee (db : Db) (code : String) : Option EmployeeRecord :=
  db.employee_codes.find? (fun e => e.code == code)

/-- `Database.add_employee`: normalize the department exactly as the Python
does (`department.strip() if department else None`), then upsert; on
conflict the department is `COALESCE(excluded.department, old)`.  Returns
`true` when a new record was created. -/
def add_employee (db : Db) (code full_name : String) (department : Option String) : Bool × Db :=
  let dept : Option String :=
    match department with
    | none => none
    | some d => if d == "" then none else some (pyStrip d.toList).asString
  let existing := db.employee_codes.any (fun e => e.code == code)
  let rows :=
    if existing then
      db.employee_codes.map (fun e =>
        if e.code == code then
          { e with full_name := full_name,
                   department := match dept with | none => e.department | some d => some d }
        else e)
    else
      db.employee_codes ++ [⟨code, full_name, dept⟩]
  (!existing, { db with employee_codes := rows })

/-- `Database.create_call`: INSERT with status `basic_guidance_provided`;
`created_at` defaults to the current timestamp. -/
def create_call (db : Db) (telegram_user_id : Int)
    (full_name department issue_type : String)
    (employee_code : Option String) (basic_guidance : String) : Int × Db :=
  let callId := db.next_id
  (callId,
   { db with
     next_id := db.next_id + 1,
     calls := db.calls ++
       [{ id := callId
          telegram_user_id := telegram_user_id
          user_full_name := full_name
          department := department
          issue_type := issue_type
          employee_code := employee_code
          basic_guidance := basic_guidance
          issue_description := none
          ai_guidance := none
          status := "basic_guidance_provided"
          assigned_engineer := none
          created_date := db.today }] })

def update_issue_description (db : Db) (callId : Int) (description : String) : Db :=
  { db with calls := db.calls.map (fun c =>
      if c.id == callId then { c with issue_description := some description } else c) }

def update_ai_guidance (db : Db) (callId : Int) (guidance : String) : Db :=
  { db with calls := db.calls.map (fun c =>
      if c.id == callId then
        { c with ai_guidance := some guidance, status := "ai_guidance_provided" }
      else c) }

def mark_status (db : Db) (callId : Int) (status : String) : Db :=
  { db with calls := db.calls.map (fun c =>
      if c.id == callId then { c with status := status } else c) }

def assign_engineer (db : Db) (callId : Int) (engineer_name : String) : Db :=
  { db with calls := db.calls.map (fun c =>
      if c.id == callId then
        { c with assigned_engineer := some engineer_name, status := "escalated_to_engineer" }
      else c) }

/-- The SQL predicate `assigned_engineer IS NULL OR assigned_engineer = ''`. -/
def unassignedField : Option String → Bool
  | none => true
  | some s => s == ""

/-- `Database.assign_engineer_if_unassigned`: a single UPDATE guarded by
`id = ? AND (assigned_engineer IS NULL OR assigned_engineer = '')`; the
returned Bool is `cursor.rowcount > 0`, i.e. whether any row matched. -/
def assign_engineer_if_unassigned (db : Db) (callId : Int) (engineer_name : String) :
    Bool × Db :=
  (db.calls.any (fun c => c.id == callId && unassignedField c.assigned_engineer),
   { db with calls := db.calls.map (fun c =>
       if c.id == callId && unassignedField c.assigned_engineer then
         { c with assigned_engineer := some engineer_name, status := "escalated_to_engineer" }
       else c) })

/-- `Database.is_call_assigned`: `bool(row and row[0])` — false when the row
is missing, the column is NULL, or the column is the empty string. -/
def is_call_assigned (db : Db) (callId : Int) : Bool :=
  match db.calls.find? (fun c => c.id == callId) with
  | none => false
  | some c =>
    match c.assigned_engineer with
    | none => false
    | some s => s != ""

/-- `Database.get_call_details` (modeled as the whole row). -/
def get_call_details (db : Db) (callId : Int) : Option Call :=
  db.calls.find? (fun c => c.id == callId)

/-- `Database._count_for_today`: tickets assigned to the engineer whose
creation date is today. -/
def count_for_today (db : Db) (engineer_name : String) : Nat :=
  (db.calls.filter (fun c =>
    c.assigned_engineer == some engineer_name && c.created_date == db.today)).length

def engineer_loads (db : Db) (engineer_names : List String) : List (String × Nat) :=
  engineer_names.map (fun n => (n, count_for_today db n))

/-- Python `loads.get(name, 0)`. -/
def loadOf (loads : List (String × Nat)) (name : String) : Nat :=
  match loads.find? (fun p => p.1 == name) with
  | some p => p.2
  | none => 0

/-- Row filter of every query in `Database.summary_between`:
`DATE(created_at) BETWEEN ? AND ?` (inclusive). -/
def inCreatedRange (s e : Date) (c : Call) : Bool :=
  dateLe s c.created_date && dateLe c.created_date e

/-- `GROUP BY` + `COUNT(*)`: one `(key, count)` pair per distinct key. -/
def groupCounts (rows : List Call) (f : Call → String) : List (String × Nat) :=
  (rows.map f).dedup.map (fun k => (k, (rows.filter (fun c => f c == k)).length))

structure Summary where
  total : Nat
  by_department : List (String × Nat)
  by_issue : List (String × Nat)
  statuses : List (String × Nat)
deriving Repr, DecidableEq

/-- `Database.summary_between`: the four aggregate queries, each restricted
to rows created within the inclusive date range. -/
def summary_between (db : Db) (start_date end_date : Date) : Summary :=
  let rows := db.calls.filter (inCreatedRange start_date end_date)
  { total := rows.length
    by_department := groupCounts rows (·.department)
    by_issue := groupCounts rows (·.issue_type)
    statuses := groupCounts rows (·.status) }

/-! ## Configuration (config.py) and the guidance generator (ai.py) -/

structure Engineer where
  name : String
  chat_id : Int
deriving Repr, DecidableEq

/-- The `BotConfig` frozen dataclass (config.py:25-34), restricted to the
fields the modeled handlers read.  The remaining fields
(`telegram_token`, `openai_api_key`, `openai_model`, `database_path`) are
opaque strings no modeled handler consults.  Note the dataclass defines NO
`employee_codes` attribute — yet `handlers.py:155` and `handlers.py:176`
read `self._config.employee_codes`, an access that raises
`AttributeError` on this dataclass (see claim C10). -/
structure BotConfig where
  manager_chat_id : Int
  engineers : List Engineer
deriving Repr, DecidableEq

/-- The possible outcomes of the OpenAI call inside
`AIAssistant.generate_guidance`, one per `except` arm of ai.py. -/
inductive ApiOutcome where
  | success (text : String)
  | authError
  | rateLimitError
  | transportError
  | unexpectedError
deriving Repr, DecidableEq

def ApiOutcome.isSuccess : ApiOutcome → Bool
  | .success _ => true
  | _ => false

def authErrorText : String :=
  "⚠️ OpenAI API түлхүүр буруу эсвэл идэвхгүй байна. Тохиргоог шалгана уу."

def rateLimitErrorText : String :=
  "⚠️ OpenAI талд түр дараалал дүүрсэн байна. Дараа дахин оролдоно уу."

def transportErrorText : String :=
  "⚠️ AI зөвлөгөө авахад алдаа гарлаа. Сүлжээ/загварын тохиргоог шалгана уу."

def unexpectedErrorText : String :=
  "⚠️ Тодорхойгүй алдаа. Логийг шалгана уу."

/-- `AIAssistant.generate_guidance`: on success return the stripped response
text; every exception class (`AuthenticationError`, `RateLimitError`,
`BadRequestError`/`APIStatusError`/`APIConnectionError`, and the final bare
`except Exception`) is caught inside the method, which then RETURNS a fixed
warning string instead of raising. -/
def generate_guidance : ApiOutcome → String
  | .success text => (pyStrip text.toList).asString
  | .authError => authErrorText
  | .rateLimitError => rateLimitErrorText
  | .transportError => transportErrorText
  | .unexpectedError => unexpectedErrorText

/-! ## Handler infrastructure (handlers.py) -/

/-- The `ConversationState` enum. -/
inductive ConvState where
  | ask_employee_code
  | ask_name
  | ask_department
  | choose_issue
  | basic_followup
  | request_details_state
  | ai_followup
deriving Repr, DecidableEq

/-- One entry of `ISSUE_CATEGORIES`. -/
structure IssueCategory where
  key : String
  title : String
  basic_guidance : String
deriving Repr, DecidableEq

/-- The `context.user_data` fields a reporter conversation has accumulated
by the time a ticket exists.  `full_name` and `department` are always
present at that point; the optional fields model keys that may be absent
(`context.user_data.get(...)`). -/
structure UserData where
  call_id : Int
  full_name : String
  department : String
  employee_code : Option String
  issue_category : IssueCategory
  issue_description : Option String := none
  ai_guidance : Option String := none
deriving Repr, DecidableEq

/-- Result of running one handler: the database afterwards plus every
observable effect — texts sent back to the invoking chat (`reply_text`),
messages sent to the manager chat, messages sent to engineer chats,
auto-assign jobs scheduled (`job_queue.run_once`) and removed
(`job.schedule_removal`), and the conversation state returned (`none` is
`ConversationHandler.END` / no conversation). -/
structure HandlerResult where
  db : Db
  replies : List String := []
  managerMsgs : List String := []
  engineerMsgs : List (Int × String) := []
  scheduledJobs : List String := []
  removedJobs : List String := []
  nextState : Option ConvState := none
deriving Repr, DecidableEq

def permission_denied_msg : String := "Энэ коммандыг ашиглах эрхгүй байна."

def auto_assign_job_name (callId : Int) : String :=
  "auto_assign_" ++ toString callId

/-- `BotHandler._find_engineer`: case-insensitive roster lookup of the
stripped name (ASCII case folding; the verified scenarios use ASCII
names). -/
def find_engineer (cfg : BotConfig) (name : String) : Option Engineer :=
  let lookup := (pyLower (pyStrip name.toList)).asString
  cfg.engineers.find? (fun e => (pyLower e.name.toList).asString == lookup)

/-- Python `x or default` for an optional string column (`None` and `""` are
both falsy). -/
def orDefault (x : Option String) (default : String) : String :=
  match x with
  | none => default
  | some s => if s == "" then default else s

/-- `context.user_data.get(key, default)` for an optional field. -/
def getOr (x : Option String) (default : String) : String :=
  match x with
  | none => default
  | some s => s

/-- `BotHandler._compose_assignment_summary`. -/
def compose_assignment_summary (details : Call) (engineer : Engineer)
    (loads : List (String × Nat)) : String :=
  "Шинэ дуудлага:\n" ++
  "- Дуудлагын ID: " ++ toString details.id ++ "\n" ++
  "- Ажилтан: " ++ details.user_full_name ++ "\n" ++
  "- Бүтцийн нэгж: " ++ details.department ++ "\n" ++
  "- Ажилтны код: " ++ orDefault details.employee_code "бүртгэгдээгүй" ++ "\n" ++
  "- Асуудлын төрөл: " ++ details.issue_type ++ "\n" ++
  "- Дэлгэрэнгүй: " ++ orDefault details.issue_description "бүртгэгдээгүй" ++ "\n" ++
  "- Оноосон инженер: " ++ engineer.name ++ "\n" ++
  "- Өнөөдрийн ачаалал: " ++ toString (loadOf loads engineer.name + 1) ++ " дуудлага" ++
  (match details.ai_guidance with
   | none => ""
   | some g => if g == "" then "" else "\n- AI зөвлөгөө:\n" ++ g)

/-- The text `BotHandler._notify_engineer` sends (delivery failures are
swallowed; the message content is what we model). -/
def engineer_notification_text (summary : String) : String :=
  "Танд шинэ дуудлага оноолоо.\n" ++ summary ++ "\nДэлгэрэнгүйг системээс шалгана уу."

/-- The manager message of `BotHandler._notify_manager_ai_failure`; the raw
exception text is appended when it is non-empty. -/
def notify_manager_ai_failure_text (ud : UserData) (callId : Int) (excText : String) :
    String :=
  "AI зөвлөгөө авах үеэр алдаа гарлаа.\n" ++
  "- Дуудлагын ID: " ++ toString callId ++ "\n" ++
  "- Ажилтны код: " ++ getOr ud.employee_code "бүртгэгдээгүй" ++ "\n" ++
  "- Ажилтан: " ++ ud.full_name ++ "\n" ++
  "- Бүтцийн нэгж: " ++ ud.department ++ "\n" ++
  (if excText == "" then "" else "- Алдааны мэдээлэл: " ++ excText ++ "\n")

/-- The manager message of `BotHandler._escalate` when no engineer roster is
configured. -/
def no_roster_manager_text (ud : UserData) : String :=
  "Инженерийн жагсаалт тохируулагдаагүй тул дуудлага автоматаар оноогдсонгүй.\n" ++
  "- Дуудлагын ID: " ++ toString ud.call_id ++ "\n" ++
  "- Ажилтан: " ++ ud.full_name ++ "\n" ++
  "- Бүтцийн нэгж: " ++ ud.department ++ "\n" ++
  "- Ажилтны код: " ++ getOr ud.employee_code "бүртгэгдээгүй" ++ "\n" ++
  "- Асуудлын төрөл: " ++ ud.issue_category.title ++ "\n" ++
  "- Дэлгэрэнгүй: " ++ getOr ud.issue_description "бүртгэгдээгүй"

/-- The manager summary of `BotHandler._escalate` when a roster exists:
ticket context, per-engineer loads, and the 10-minute deadline notice. -/
def escalation_manager_text (ud : UserData) (loads : List (String × Nat))
    (engineers : List Engineer) : String :=
  "Дуудлагыг инженерт оноох шаардлагатай байна.\n" ++
  "- Дуудлагын ID: " ++ toString ud.call_id ++ "\n" ++
  "- Ажилтан: " ++ ud.full_name ++ "\n" ++
  "- Бүтцийн нэгж: " ++ ud.department ++ "\n" ++
  "- Ажилтны код: " ++ getOr ud.employee_code "бүртгэгдээгүй" ++ "\n" ++
  "- Асуудлын төрөл: " ++ ud.issue_category.title ++ "\n" ++
  "- Дэлгэрэнгүй: " ++ getOr ud.issue_description "бүртгэгдээгүй" ++ "\n" ++
  (match ud.ai_guidance with
   | none => ""
   | some g => if g == "" then "" else "\n- AI зөвлөгөө:\n" ++ g ++ "\n") ++
  "\nБоломжит инженерүүд:\n" ++
  String.join (engineers.map (fun e =>
    "- " ++ e.name ++ ": " ++ toString (loadOf loads e.name) ++ " дуудлага өнөөдөр\n")) ++
  "\n10 минутын дотор /assign_call ДУУДЛАГЫН_ID ИНЖЕНЕР_НЭР командыг ашиглан инженер онооно уу." ++
  " Хэрэв оноохгүй бол систем хамгийн бага ачаалалтай инженерт автоматаар онооно."

/-- `BotHandler._escalate`: with no roster, notify the manager with full
context and stop (status → `awaiting_manager`); with a roster, compute
loads, set `awaiting_manager`, send the manager summary, and arm the
10-minute auto-assign timer for this ticket. -/
def escalate (cfg : BotConfig) (db : Db) (ud : UserData) : HandlerResult :=
  if cfg.engineers.isEmpty then
    { db := mark_status db ud.call_id "awaiting_manager"
      replies := ["Одоогоор инженерийн мэдээлэл бүртгэгдээгүй байна. Менежерт мэдэгдэнэ."]
      managerMsgs := [no_roster_manager_text ud] }
  else
    let loads := engineer_loads db (cfg.engineers.map (·.name))
    { db := mark_status db ud.call_id "awaiting_manager"
      replies := ["Манай менежер дуудлагыг шалгаж, инженерт оноож байна. Удахгүй холбогдоно."]
      managerMsgs := [escalation_manager_text ud loads cfg.engineers]
      scheduledJobs := [auto_assign_job_name ud.call_id] }

/-- `BotHandler.request_details`: store the description, set
`awaiting_ai_guidance`, then run the guidance generator off-thread.  The
`api` argument is the outcome of that executor call: `Except.error e`
models an exception propagating out of it (caught by the handler's
`except Exception` arm), `Except.ok g` a normally returned string.  The
second component is `context.user_data` afterwards. -/
def request_details (cfg : BotConfig) (db : Db) (ud : UserData)
    (description : String) (api : Except String String) : HandlerResult × UserData :=
  let ud1 := { ud with issue_description := some description }
  let db1 := update_issue_description db ud.call_id description
  let db2 := mark_status db1 ud.call_id "awaiting_ai_guidance"
  match api with
  | .error excText =>
    let db3 := mark_status db2 ud.call_id "ai_guidance_failed"
    let esc := escalate cfg db3 ud1
    ({ esc with
       replies := "Хиймэл оюун ухаанаас зөвлөгөө авч байна..." ::
         "Хиймэл оюуны зөвлөгөө авахад алдаа гарлаа. Менежерт мэдэгдлээ." :: esc.replies
       managerMsgs := notify_manager_ai_failure_text ud1 ud.call_id excText :: esc.managerMsgs
       nextState := none },
     ud1)
  | .ok guidance =>
    let db3 := update_ai_guidance db2 ud.call_id guidance
    ({ db := db3
       replies := ["Хиймэл оюун ухаанаас зөвлөгөө авч байна...", guidance,
                   "Эдгээр алхам тань тус болсон уу?"]
       nextState := some ConvState.ai_followup },
     { ud1 with ai_guidance := some guidance })

/-- `request_details` composed with the actual generator: since
`generate_guidance` catches every exception class internally and returns a
string, the executor call returns normally for every modeled outcome. -/
def request_details_run (cfg : BotConfig) (db : Db) (ud : UserData)
    (description : String) (outcome : ApiOutcome) : HandlerResult × UserData :=
  request_details cfg db ud description (Except.ok (generate_guidance outcome))

/-- Python `min(engineers, key=lambda eng: loads.get(eng.name, 0))`: scan
left to right, replacing the running best only on a strictly smaller key,
so the first engineer achieving the minimum wins. -/
def min_by_load (engineers : List Engineer) (loads : List (String × Nat)) :
    Option Engineer :=
  match engineers with
  | [] => none
  | e :: rest =>
    some (rest.foldl
      (fun best cand => if loadOf loads cand.name < loadOf loads best.name then cand else best)
      e)

/-- `BotHandler._auto_assign_job`: no-op without a call id, without a
roster, or when the call is already assigned; otherwise pick the engineer
with minimal load today, attempt the atomic conditional assignment, and on
success notify the manager and the engineer. -/
def auto_assign_job (cfg : BotConfig) (db : Db) (callIdData : Option Int) : HandlerResult :=
  match callIdData with
  | none => { db := db }
  | some callId =>
    if cfg.engineers.isEmpty then { db := db }
    else if is_call_assigned db callId then { db := db }
    else
      let loads := engineer_loads db (cfg.engineers.map (·.name))
      match min_by_load cfg.engineers loads with
      | none => { db := db }
      | some selected =>
        let r := assign_engineer_if_unassigned db callId selected.name
        if !r.1 then { db := r.2 }
        else
          match get_call_details r.2 callId with
          | none => { db := r.2 }
          | some details =>
            let summary := compose_assignment_summary details selected loads
            { db := r.2
              managerMsgs :=
                ["10 минут өнгөрсөн тул дуудлагыг автоматаар оноолоо.\n\n" ++ summary]
              engineerMsgs := [(selected.chat_id, engineer_notification_text summary)] }

/-- Digit run with optional single underscores between digits, as Python's
`int()` accepts (`context.args` tokens are whitespace-free, so surrounding
whitespace cannot occur; non-ASCII digits are out of scope). The head of
the list has already been checked to be a digit. -/
def underscoredDigits : List Char → Bool
  | [] => true
  | '_' :: c :: rest => c.isDigit && underscoredDigits rest
  | c :: rest => c.isDigit && underscoredDigits rest

def digitsOnly (cs : List Char) : List Char :=
  cs.filter (fun c => c != '_')

def pyNatToken (cs : List Char) : Option Nat :=
  match cs with
  | [] => none
  | c :: _ =>
    if c.isDigit && underscoredDigits cs then some (digitsVal (digitsOnly cs))
    else none

/-- Python `int(token)` on a whitespace-free argument token: optional sign,
then digits. -/
def pyIntToken (s : String) : Option Int :=
  match s.toList with
  | '+' :: rest => (pyNatToken rest).map Int.ofNat
  | '-' :: rest => (pyNatToken rest).map (fun n => -(n : Int))
  | rest => (pyNatToken rest).map Int.ofNat

/-- `BotHandler.assign_call` (the `/assign_call ID NAME` command): manager
check, argument parsing, roster lookup, ticket lookup, closed-ticket check,
timer removal, then the unconditional `assign_engineer` plus
notifications. -/
def assign_call (cfg : BotConfig) (db : Db) (callerId : Int) (args : List String) :
    HandlerResult :=
  if callerId != cfg.manager_chat_id then
    { db := db, replies := [permission_denied_msg] }
  else if args.length < 2 then
    { db := db, replies := ["Хэрэглээ: /assign_call ДУУДЛАГЫН_ID ИНЖЕНЕР_НЭР"] }
  else
    match args with
    | [] => { db := db, replies := ["Хэрэглээ: /assign_call ДУУДЛАГЫН_ID ИНЖЕНЕР_НЭР"] }
    | idArg :: nameArgs =>
      match pyIntToken idArg with
      | none => { db := db, replies := ["Дуудлагын ID бүхэл тоо байх ёстой."] }
      | some callId =>
        let engineer_name := (pyStrip (joinWith [' '] (nameArgs.map String.toList))).asString
        if engineer_name == "" then
          { db := db, replies := ["Инженерийн нэрийг зөв оруулна уу."] }
        else
          match find_engineer cfg engineer_name with
          | none =>
            let available :=
              if cfg.engineers.isEmpty then "тодорхойгүй"
              else (joinWith [',', ' '] (cfg.engineers.map (·.name.toList))).asString
            { db := db
              replies := [engineer_name ++ " нэртэй инженер тохируулагдаагүй байна. Боломжит нэрс: "
                ++ available] }
          | some engineer =>
            match get_call_details db callId with
            | none =>
              { db := db, replies := [toString callId ++ " дуудлага олдсонгүй."] }
            | some details =>
              if details.status == "resolved_with_basic"
                  || details.status == "resolved_with_ai" then
                { db := db, replies := ["Энэ дуудлага аль хэдийн хаагдсан байна."] }
              else
                let loads := engineer_loads db (cfg.engineers.map (·.name))
                let db2 := assign_engineer db callId engineer.name
                let summary := compose_assignment_summary details engineer loads
                { db := db2
                  replies := [toString callId ++ " дуудлагыг " ++ engineer.name
                    ++ " инженерт оноолоо.\n\n" ++ summary]
                  engineerMsgs := [(engineer.chat_id, engineer_notification_text summary)]
                  removedJobs := [auto_assign_job_name callId] }

/-- `BotHandler.report`: manager check, then the period keyboard prompt;
touches no state either way. -/
def report (cfg : BotConfig) (db : Db) (callerId : Int) : HandlerResult :=
  if callerId != cfg.manager_chat_id then
    { db := db, replies := [permission_denied_msg] }
  else
    { db := db, replies := ["Тайлан авах хугацаагаа сонгоно уу."] }

/-- `BotHandler.add_employee` (the `/add_employee CODE NAME[;DEPT]`
command). -/
def add_employee_cmd (cfg : BotConfig) (db : Db) (callerId : Int) (args : List String) :
    HandlerResult :=
  if callerId != cfg.manager_chat_id then
    { db := db, replies := [permission_denied_msg] }
  else if args.length < 2 then
    { db := db, replies := ["Хэрэглээ: /add_employee АЖИЛТНЫ_КОД ОВОГ_НЭР; БҮТЦИЙН_НЭГЖ"] }
  else
    match args with
    | [] => { db := db, replies := ["Хэрэглээ: /add_employee АЖИЛТНЫ_КОД ОВОГ_НЭР; БҮТЦИЙН_НЭГЖ"] }
    | codeArg :: detailArgs =>
      let code := (pyStrip codeArg.toList).asString
      let raw_details := pyStrip (joinWith [' '] (detailArgs.map String.toList))
      -- `raw_details.partition(";")` splits at the first semicolon
      let parts :=
        match splitChar ';' raw_details with
        | [] => ("", "")
        | [x] => (x.asString, "")
        | x :: rest => (x.asString, (joinWith [';'] rest).asString)
      let full_name := (pyStrip parts.1.toList).asString
      let department := (pyStrip parts.2.toList).asString
      if code == "" || full_name == "" then
        { db := db
          replies := ["Код болон овог нэрийг зөв оруулна уу. Бүтцийн нэгжийг ';' тэмдэгтээр салгаж бичиж болно."] }
      else
        let r := add_employee db code full_name (some department)
        if r.1 then
          { db := r.2, replies := [code ++ " код бүхий " ++ full_name ++ " амжилттай нэмэгдлээ."] }
        else
          { db := r.2, replies := [code ++ " кодын мэдээллийг " ++ full_name ++ " нэрээр шинэчиллээ."] }

/-- `BotHandler._within_working_hours`: `time(9,0) <= now < time(18,0)`,
with `now` the local time of day in seconds since midnight. -/
def within_working_hours (now : Nat) : Bool :=
  decide (9 * 3600 ≤ now) && decide (now < 18 * 3600)

def out_of_hours_msg : String :=
  "Уучлаарай, ажлын цаг дууссан байна. Бид 09:00-18:00 цагийн хооронд дуудлага хүлээн авна."

/-- The `AttributeError` raised by `self._config.employee_codes` on the
frozen `BotConfig` dataclass (Python's message text, abbreviated to avoid
quoting). -/
def start_attribute_error_msg : String :=
  "AttributeError: BotConfig has no attribute employee_codes"

/-- `BotHandler.start` (the `/start` entry point): clear the per-user
state, then end immediately outside working hours.  The in-hours branch
begins with `if self._config.employee_codes or ...` (handlers.py:155);
Python evaluates the attribute read first, and since the repository's
`BotConfig` defines no `employee_codes` field, that read raises
`AttributeError` before any identity prompt is sent — modeled as
`Except.error`.  `start` never touches the calls table either way. -/
def start (cfg : BotConfig) (db : Db) (now : Nat) : Except String HandlerResult :=
  if !within_working_hours now then
    Except.ok { db := db, replies := [out_of_hours_msg], nextState := none }
  else
    Except.error start_attribute_error_msg

/-- A sequence of `assign_engineer_if_unassigned` calls against the same
ticket, pairing each attempted engineer name with the returned Bool. -/
def assignSeq : Db → Int → List String → List (String × Bool) × Db
  | db, _, [] => ([], db)
  | db, callId, n :: rest =>
    let r := assign_engineer_if_unassigned db callId n
    let s := assignSeq r.2 callId rest
    ((n, r.1) :: s.1, s.2)

/-- Modelled from the spec's words, for comparison with the implementation:
a string literally of the form `YYYY-MM-DD - YYYY-MM-DD` — a four-digit
year, two-digit month and day separated by hyphens, then the three
characters space/hyphen/space, then a second such date. -/
def specCanonicalDateStr (cs : List Char) : Bool :=
  match cs with
  | [y1, y2, y3, y4, h1, m1, m2, h2, d1, d2] =>
    y1.isDigit && y2.isDigit && y3.isDigit && y4.isDigit && h1 == '-'
      && m1.isDigit && m2.isDigit && h2 == '-' && d1.isDigit && d2.isDigit
  | _ => false

/-- Modelled from the spec's words: the full `'YYYY-MM-DD - YYYY-MM-DD'`
shape the spec says is accepted "exactly". -/
def specCanonicalRangeForm (s : String) : Bool :=
  match splitSpDash s.toList with
  | [a, b] => specCanonicalDateStr a && specCanonicalDateStr b
  | _ => false

/-! ## Generic lemmas about the row-update pattern

Every UPDATE in database.py maps the table, rewriting exactly the rows
matched by its WHERE clause; the lemmas below push `find?` through such a
map. -/

theorem find?_map_upd (l : List Call) (i : Int) (f : Call → Call)
    (hf : ∀ c, (f c).id = c.id) :
    (l.map fun c => if c.id == i then f c else c).find? (fun c => c.id == i)
      = (l.find? (fun c => c.id == i)).map f := by
  induction l with
  | nil => rfl
  | cons c t ih =>
    simp only [List.map_cons, List.find?_cons]
    by_cases h : (c.id == i) = true
    · have hfc : ((f c).id == i) = true := by rw [show (f c).id = c.id from hf c]; exact h
      simp [h, hfc]
    · have h' : (c.id == i) = false := by simpa using h
      rw [if_neg h]
      simp only [h']
      exact ih

theorem find?_map_upd_if (l : List Call) (i : Int) (p : Call → Bool) (f : Call → Call)
    (hf : ∀ c, (f c).id = c.id) :
    (l.map fun c => if c.id == i && p c then f c else c).find? (fun c => c.id == i)
      = (l.find? (fun c => c.id == i)).map (fun c => if p c then f c else c) := by
  induction l with
  | nil => rfl
  | cons c t ih =>
    simp only [List.map_cons, List.find?_cons]
    by_cases h : (c.id == i) = true
    · by_cases hp : p c = true
      · have hfc : ((f c).id == i) = true := by rw [show (f c).id = c.id from hf c]; exact h
        simp [h, hp, hfc]
      · have hp' : p c = false := by simpa using hp
        simp [h, hp']
    · have h' : (c.id == i) = false := by simpa using h
      rw [if_neg (by simp [h'])]
      simp only [h']
      exact ih

theorem map_no_hit_eq_self (l : List Call) (q : Call → Bool) (f : Call → Call)
    (h : ∀ c ∈ l, q c = false) :
    (l.map fun c => if q c then f c else c) = l := by
  have h' : ∀ c ∈ l, (if q c then f c else c) = id c := by
    intro c hc; simp [h c hc]
  rw [List.map_congr_left h', List.map_id]

/-! Specializations to the database operations. -/

theorem get_mark_status (db : Db) (i : Int) (s : String) :
    get_call_details (mark_status db i s) i
      = (get_call_details db i).map (fun c => { c with status := s }) := by
  simpa [get_call_details, mark_status] using
    find?_map_upd db.calls i (fun c => { c with status := s }) (fun _ => rfl)

theorem get_update_issue_description (db : Db) (i : Int) (d : String) :
    get_call_details (update_issue_description db i d) i
      = (get_call_details db i).map (fun c => { c with issue_description := some d }) := by
  simpa [get_call_details, update_issue_description] using
    find?_map_upd db.calls i (fun c => { c with issue_description := some d }) (fun _ => rfl)

theorem get_update_ai_guidance (db : Db) (i : Int) (g : String) :
    get_call_details (update_ai_guidance db i g) i
      = (get_call_details db i).map
          (fun c => { c with ai_guidance := some g, status := "ai_guidance_provided" }) := by
  simpa [get_call_details, update_ai_guidance] using
    find?_map_upd db.calls i
      (fun c => { c with ai_guidance := some g, status := "ai_guidance_provided" })
      (fun _ => rfl)

theorem get_assign_engineer (db : Db) (i : Int) (n : String) :
    get_call_details (assign_engineer db i n) i
      = (get_call_details db i).map
          (fun c => { c with assigned_engineer := some n, status := "escalated_to_engineer" }) := by
  simpa [get_call_details, assign_engineer] using
    find?_map_upd db.calls i
      (fun c => { c with assigned_engineer := some n, status := "escalated_to_engineer" })
      (fun _ => rfl)

theorem get_assign_if_unassigned (db : Db) (i : Int) (n : String) :
    get_call_details (assign_engineer_if_unassigned db i n).2 i
      = (get_call_details db i).map
          (fun c =>
            if unassignedField c.assigned_engineer then
              { c with assigned_engineer := some n, status := "escalated_to_engineer" }
            else c) := by
  simpa [get_call_details, assign_engineer_if_unassigned] using
    find?_map_upd_if db.calls i (fun c => unassignedField c.assigned_engineer)
      (fun c => { c with assigned_engineer := some n, status := "escalated_to_engineer" })
      (fun _ => rfl)

/-! ## Facts about the compare-and-set `assign_engineer_if_unassigned` -/

theorem aeiu_true_iff (db : Db) (callId : Int) (n : String) :
    (assign_engineer_if_unassigned db callId n).1 = true ↔
      ∃ c ∈ db.calls, c.id = callId ∧ unassignedField c.assigned_engineer = true := by
  simp [assign_engineer_if_unassigned, List.any_eq_true, Bool.and_eq_true, beq_iff_eq]

theorem aeiu_false_eq (db : Db) (callId : Int) (n : String)
    (h : (assign_engineer_if_unassigned db callId n).1 = false) :
    (assign_engineer_if_unassigned db callId n).2 = db := by
  have hno : ∀ c ∈ db.calls,
      (c.id == callId && unassignedField c.assigned_engineer) = false := by
    intro c hc
    by_contra hcc
    have : (assign_engineer_if_unassigned db callId n).1 = true :=
      List.any_eq_true.mpr ⟨c, hc, by simpa using hcc⟩
    rw [h] at this
    exact Bool.false_ne_true this
  show ({ db with calls := _ } : Db) = db
  rw [map_no_hit_eq_self db.calls _ _ hno]

theorem find?_eq_of_mem_nodup (l : List Call) (hnd : (l.map (·.id)).Nodup)
    (c : Call) (hc : c ∈ l) (i : Int) (hi : c.id = i) :
    l.find? (fun x => x.id == i) = some c := by
  have h2 : (l.find? (fun x => x.id == i)).isSome :=
    List.find?_isSome.mpr ⟨c, hc, by simp [hi]⟩
  obtain ⟨d, hd⟩ := Option.isSome_iff_exists.mp h2
  have hdl := List.mem_of_find?_eq_some hd
  have hdp := List.find?_some hd
  have hde : d = c := by
    refine List.inj_on_of_nodup_map hnd hdl hc ?_
    have : d.id = i := by simpa using hdp
    rw [this, hi]
  rw [hd, hde]

theorem aeiu_success_shape (db : Db) (callId : Int) (n : String)
    (hnd : (db.calls.map (·.id)).Nodup)
    (hr : (assign_engineer_if_unassigned db callId n).1 = true) :
    ∃ c, get_call_details db callId = some c
      ∧ unassignedField c.assigned_engineer = true
      ∧ get_call_details (assign_engineer_if_unassigned db callId n).2 callId
          = some { c with assigned_engineer := some n, status := "escalated_to_engineer" } := by
  obtain ⟨c₀, hc₀, hid, hun⟩ := (aeiu_true_iff db callId n).mp hr
  have hfind : get_call_details db callId = some c₀ :=
    find?_eq_of_mem_nodup db.calls hnd c₀ hc₀ callId hid
  refine ⟨c₀, hfind, hun, ?_⟩
  rw [get_assign_if_unassigned, hfind]
  simp [hun]

theorem aeiu_post_success_no_hit (db : Db) (callId : Int) (n : String)
    (hn : (n == "") = false) :
    ∀ c ∈ (assign_engineer_if_unassigned db callId n).2.calls,
      (c.id == callId && unassignedField c.assigned_engineer) = false := by
  intro c' hc'
  simp only [assign_engineer_if_unassigned, List.mem_map] at hc'
  obtain ⟨c, _, rfl⟩ := hc'
  by_cases h : (c.id == callId && unassignedField c.assigned_engineer) = true
  · rw [if_pos h]
    simp [unassignedField, hn]
  · rw [if_neg h]
    simpa using h

theorem assignSeq_all_false (callId : Int) :
    ∀ (names : List String) (db : Db),
    (∀ c ∈ db.calls, (c.id == callId && unassignedField c.assigned_engineer) = false) →
    assignSeq db callId names = (names.map (fun m => (m, false)), db) := by
  intro names
  induction names with
  | nil => intro db _; rfl
  | cons m rest ih =>
    intro db h
    have h1 : (assign_engineer_if_unassigned db callId m).1 = false := by
      simp only [assign_engineer_if_unassigned]
      exact List.any_eq_false.mpr (fun c hc => by simp [h c hc])
    have h2 : (assign_engineer_if_unassigned db callId m).2 = db :=
      aeiu_false_eq db callId m h1
    simp [assignSeq, h1, h2, ih db h]

theorem aeiu_ids (db : Db) (callId : Int) (n : String) :
    (assign_engineer_if_unassigned db callId n).2.calls.map (·.id) = db.calls.map (·.id) := by
  simp only [assign_engineer_if_unassigned, List.map_map]
  refine List.map_congr_left (fun c _ => ?_)
  simp only [Function.comp]
  by_cases h : (c.id == callId && unassignedField c.assigned_engineer) = true
  · rw [if_pos h]
  · rw [if_neg h]

theorem assignSeq_spec (callId : Int) :
    ∀ (names : List String) (db : Db),
    (db.calls.map (·.id)).Nodup → names.all (fun m => m != "") = true →
    ((assignSeq db callId names).1.map Prod.snd).count true ≤ 1
      ∧ ∀ p ∈ (assignSeq db callId names).1, p.2 = true →
          (get_call_details (assignSeq db callId names).2 callId).map (·.assigned_engineer)
            = some (some p.1) := by
  intro names
  induction names with
  | nil =>
    intro db _ _
    exact ⟨by simp [assignSeq], fun p hp => by simp [assignSeq] at hp⟩
  | cons m rest ih =>
    intro db hnd hall
    have hall' := hall
    rw [List.all_cons, Bool.and_eq_true] at hall'
    have hm : (m == "") = false := by
      have h1 : m ≠ "" := by simpa using hall'.1
      simpa using h1
    have hrest : rest.all (fun x => x != "") = true := hall'.2
    by_cases hr : (assign_engineer_if_unassigned db callId m).1 = true
    · -- this call succeeds; afterwards every later call fails
      have hnohit := aeiu_post_success_no_hit db callId m hm
      have hseq := assignSeq_all_false callId rest
        (assign_engineer_if_unassigned db callId m).2 hnohit
      obtain ⟨c, _, _, hget⟩ := aeiu_success_shape db callId m hnd hr
      constructor
      · have hzero : ((rest.map (Prod.snd ∘ fun m => (m, false))).count true) = 0 := by
          refine List.count_eq_zero.mpr ?_
          intro hmem
          obtain ⟨x, _, hx⟩ := List.mem_map.mp hmem
          exact Bool.false_ne_true hx
        simp [assignSeq, hr, hseq, List.map_cons, List.map_map, List.count_cons, hzero]
      · intro p hp hp2
        simp only [assignSeq, hr, hseq, List.mem_cons] at hp ⊢
        rcases hp with hp | hp
        · subst hp
          rw [hget]
          rfl
        · obtain ⟨x, _, hx⟩ := List.mem_map.mp hp
          rw [← hx] at hp2
          exact absurd hp2 (by simp)
    · have hr' : (assign_engineer_if_unassigned db callId m).1 = false := by simpa using hr
      have h2 := aeiu_false_eq db callId m hr'
      have := ih db hnd hrest
      constructor
      · have h0 := this.1
        simp only [assignSeq, hr', h2, List.map_cons, List.count_cons] at h0 ⊢
        simpa using h0
      · intro p hp hp2
        simp only [assignSeq, hr', h2, List.mem_cons] at hp ⊢
        rcases hp with hp | hp
        · rw [hp] at hp2; exact absurd hp2 (by simp)
        · exact this.2 p hp hp2

/-! ## Concrete fixtures used by witnesses and counterexamples -/

def exDate : Date := ⟨2024, 5, 1⟩

def mkCall (i : Int) (dept status : String) (eng : Option String) (d : Date) : Call :=
  { id := i, telegram_user_id := 1000, user_full_name := "A. Bat", department := dept,
    issue_type := "Интернэт сүлжээ", employee_code := none, basic_guidance := "guidance",
    issue_description := none, ai_guidance := none, status := status,
    assigned_engineer := eng, created_date := d }

def c1cfg : BotConfig := ⟨99, [⟨"Alpha", 11⟩]⟩

def c1db : Db := ⟨[mkCall 1 "IT" "basic_guidance_provided" none exDate], [], 2, exDate⟩

def c1ud : UserData :=
  ⟨1, "A. Bat", "IT", none, ⟨"network", "Интернэт сүлжээ", "guidance"⟩, none, none⟩

def c2db : Db := ⟨[mkCall 1 "IT" "awaiting_manager" none exDate], [], 2, exDate⟩

/-! ## Claim C2 -/

/-- C2 (amended): `assign_engineer_if_unassigned` returns true and rewrites
the ticket (engineer := the given name, status `escalated_to_engineer`) if
and only if the ticket exists and its `assigned_engineer` is NULL or empty;
on false it leaves the database untouched.  For a sequence of such calls
with NONEMPTY engineer names on the same ticket, at most one call returns
true and the ticket ends with that call's engineer name (an empty name
would re-create the "unassigned" state, which is the counterexample to the
unrestricted claim). -/
theorem assign_if_unassigned_cas (db : Db) (callId : Int) (n : String)
    (hnd : (db.calls.map (·.id)).Nodup) :
    ((assign_engineer_if_unassigned db callId n).1 = true ↔
      ∃ c ∈ db.calls, c.id = callId ∧ unassignedField c.assigned_engineer = true)
    ∧ ((assign_engineer_if_unassigned db callId n).1 = true →
        ∃ c, get_call_details db callId = some c
          ∧ unassignedField c.assigned_engineer = true
          ∧ get_call_details (assign_engineer_if_unassigned db callId n).2 callId
              = some { c with assigned_engineer := some n,
                              status := "escalated_to_engineer" })
    ∧ ((assign_engineer_if_unassigned db callId n).1 = false →
        (assign_engineer_if_unassigned db callId n).2 = db)
    ∧ (∀ names : List String, names.all (fun m => m != "") = true →
        ((assignSeq db callId names).1.map Prod.snd).count true ≤ 1
          ∧ ∀ p ∈ (assignSeq db callId names).1, p.2 = true →
              (get_call_details (assignSeq db callId names).2 callId).map (·.assigned_engineer)
                = some (some p.1)) :=
  ⟨aeiu_true_iff db callId n,
   fun hr => aeiu_success_shape db callId n hnd hr,
   fun hf => aeiu_false_eq db callId n hf,
   fun names hall => assignSeq_spec callId names db hnd hall⟩

/-- C2 witness: on a one-ticket database, a sequence of two conditional
assignments with nonempty names has at most one success. -/
theorem assign_if_unassigned_cas_witness :
    ((assignSeq c2db 1 ["Alpha", "Beta"]).1.map Prod.snd).count true ≤ 1 :=
  ((assign_if_unassigned_cas c2db 1 "Alpha" (by decide)).2.2.2
    ["Alpha", "Beta"] (by decide)).1

/-- C2 counterexample: with the empty string as engineer name — which the
claim's unrestricted quantifier "for every ... engineer name" admits — a
successful conditional assignment leaves the row still matching
`assigned_engineer IS NULL OR assigned_engineer = ''`, so a second call on
the same ticket returns true as well: two calls of the sequence return
true, contradicting "at most one call returns true". -/
theorem assign_if_unassigned_empty_name_cex :
    (assign_engineer_if_unassigned c2db 1 "").1 = true
    ∧ (assign_engineer_if_unassigned
        (assign_engineer_if_unassigned c2db 1 "").2 1 "Beta").1 = true
    ∧ (get_call_details
        (assign_engineer_if_unassigned
          (assign_engineer_if_unassigned c2db 1 "").2 1 "Beta").2 1).map (·.assigned_engineer)
        = some (some "Beta") := by
  decide

/-! ## Claim C1 -/

theorem escalate_db_eq (cfg : BotConfig) (db : Db) (ud : UserData) :
    (escalate cfg db ud).db = mark_status db ud.call_id "awaiting_manager" := by
  by_cases h : cfg.engineers.isEmpty <;> simp [escalate, h]

/-- C1 (amended): only a failure RAISED out of the executor call is caught
at the call site of `request_details` — there the ticket is marked
`ai_guidance_failed` (never `ai_guidance_provided`), the manager is
notified with the raw error text, and the flow proceeds into escalation
(ending at `awaiting_manager` with the AI-guidance column untouched).
`generate_guidance` itself, however, catches every API failure (auth,
rate-limit, transport, unexpected) and RETURNS a fixed warning string
instead of raising, so for those failures the handler stores that warning
text as the ticket's AI guidance with status `ai_guidance_provided` and
sends the manager nothing. -/
theorem ai_failure_handling (cfg : BotConfig) (db : Db) (ud : UserData)
    (desc : String) (c : Call)
    (hc : get_call_details db ud.call_id = some c) :
    (∀ excText : String,
      get_call_details (mark_status (mark_status (update_issue_description db ud.call_id desc)
          ud.call_id "awaiting_ai_guidance") ud.call_id "ai_guidance_failed") ud.call_id
        = some { c with issue_description := some desc, status := "ai_guidance_failed" }
      ∧ get_call_details (request_details cfg db ud desc (Except.error excText)).1.db ud.call_id
          = some { c with issue_description := some desc, status := "awaiting_manager" }
      ∧ (request_details cfg db ud desc (Except.error excText)).1.managerMsgs.head?
          = some (notify_manager_ai_failure_text { ud with issue_description := some desc }
              ud.call_id excText)
      ∧ (excText ≠ "" → ∃ pre post,
          notify_manager_ai_failure_text { ud with issue_description := some desc }
              ud.call_id excText = pre ++ excText ++ post))
    ∧ (∀ outcome : ApiOutcome, outcome.isSuccess = false →
        get_call_details (request_details_run cfg db ud desc outcome).1.db ud.call_id
          = some { c with issue_description := some desc,
                          ai_guidance := some (generate_guidance outcome),
                          status := "ai_guidance_provided" }
        ∧ (request_details_run cfg db ud desc outcome).1.managerMsgs = []) := by
  constructor
  · intro excText
    refine ⟨?_, ?_, ?_, ?_⟩
    · rw [get_mark_status, get_mark_status, get_update_issue_description, hc]
      rfl
    · have hdb : (request_details cfg db ud desc (Except.error excText)).1.db
          = mark_status (mark_status (mark_status (update_issue_description db ud.call_id desc)
              ud.call_id "awaiting_ai_guidance") ud.call_id "ai_guidance_failed")
              ud.call_id "awaiting_manager" := by
        simp only [request_details]
        exact escalate_db_eq cfg _ _
      rw [hdb, get_mark_status, get_mark_status, get_mark_status,
        get_update_issue_description, hc]
      rfl
    · simp [request_details]
    · intro hne
      have hb : (excText == "") = false := by simpa using hne
      refine ⟨"AI зөвлөгөө авах үеэр алдаа гарлаа.\n" ++
        ("- Дуудлагын ID: " ++ toString ud.call_id ++ "\n") ++
        ("- Ажилтны код: " ++ getOr ud.employee_code "бүртгэгдээгүй" ++ "\n") ++
        ("- Ажилтан: " ++ ud.full_name ++ "\n") ++
        ("- Бүтцийн нэгж: " ++ ud.department ++ "\n") ++
        "- Алдааны мэдээлэл: ", "\n", ?_⟩
      simp only [notify_manager_ai_failure_text, hb, Bool.false_eq_true, if_false,
        String.append_assoc]
  · intro outcome _
    constructor
    · simp only [request_details_run, request_details]
      rw [get_update_ai_guidance, get_mark_status, get_update_issue_description, hc]
      rfl
    · simp [request_details_run, request_details]

/-- C1 witness: an exception-free but failed rate-limited call stores the
canned warning as AI guidance with status `ai_guidance_provided`. -/
theorem ai_failure_handling_witness :
    get_call_details
        (request_details_run c1cfg c1db c1ud "no internet" ApiOutcome.rateLimitError).1.db 1
      = some { mkCall 1 "IT" "basic_guidance_provided" none exDate with
               issue_description := some "no internet",
               ai_guidance := some rateLimitErrorText,
               status := "ai_guidance_provided" } :=
  ((ai_failure_handling c1cfg c1db c1ud "no internet"
      (mkCall 1 "IT" "basic_guidance_provided" none exDate) (by decide)).2
    ApiOutcome.rateLimitError (by decide)).1

/-- C1 counterexample: an authentication failure of the guidance generator
does NOT reach the call-site handler — `generate_guidance` swallows it and
returns the canned warning, which the flow stores as AI guidance with
status `ai_guidance_provided` while the manager receives nothing; the
claimed `ai_guidance_failed` branch never runs. -/
theorem ai_failure_swallowed_cex :
    ApiOutcome.isSuccess ApiOutcome.authError = false
    ∧ generate_guidance ApiOutcome.authError = authErrorText
    ∧ (get_call_details
          (request_details_run c1cfg c1db c1ud "no internet" ApiOutcome.authError).1.db 1).map
        (·.status) = some "ai_guidance_provided"
    ∧ (get_call_details
          (request_details_run c1cfg c1db c1ud "no internet" ApiOutcome.authError).1.db 1).map
        (·.ai_guidance) = some (some authErrorText)
    ∧ (request_details_run c1cfg c1db c1ud "no internet" ApiOutcome.authError).1.managerMsgs
        = [] := by
  decide

/-! ## Claims C3 and C4: the manual `/assign_call` path -/

/-- Shape of the successful `/assign_call` path: with the manager as
caller, a parsable id, a nonempty roster-matched name, an existing ticket
whose status is not a terminal resolution, the handler removes the pending
auto-assign job and performs the unconditional `assign_engineer`. -/
theorem assign_call_success (cfg : BotConfig) (db : Db) (idArg : String)
    (nameArgs : List String) (callId : Int) (eng : Engineer) (details : Call)
    (hargs : nameArgs ≠ [])
    (hid : pyIntToken idArg = some callId)
    (hname : ((pyStrip (joinWith [' '] (nameArgs.map String.toList))).asString == "") = false)
    (hfind : find_engineer cfg
      (pyStrip (joinWith [' '] (nameArgs.map String.toList))).asString = some eng)
    (hget : get_call_details db callId = some details)
    (hst1 : (details.status == "resolved_with_basic") = false)
    (hst2 : (details.status == "resolved_with_ai") = false) :
    assign_call cfg db cfg.manager_chat_id (idArg :: nameArgs)
      = { db := assign_engineer db callId eng.name
          replies := [toString callId ++ " дуудлагыг " ++ eng.name ++ " инженерт оноолоо.\n\n"
            ++ compose_assignment_summary details eng
                 (engineer_loads db (cfg.engineers.map (·.name)))]
          engineerMsgs := [(eng.chat_id, engineer_notification_text
            (compose_assignment_summary details eng
              (engineer_loads db (cfg.engineers.map (·.name)))))]
          removedJobs := [auto_assign_job_name callId] } := by
  have hlen : ¬((idArg :: nameArgs).length < 2) := by
    cases nameArgs with
    | nil => exact absurd rfl hargs
    | cons a t => simp [List.length_cons]
  unfold assign_call
  rw [bne_self_eq_false]
  simp only [Bool.false_eq_true, if_false, if_neg hlen, hid, hname, hfind, hget, hst1, hst2,
    Bool.or_self, if_neg]

/-- C3 (amended): a manager-issued manual assign of an existing ticket to a
roster engineer (matched case-insensitively) overwrites any prior
assignment — including a prior auto-assignment to a different engineer —
and ends with `assigned_engineer` equal to the named engineer, PROVIDED the
ticket's status is not a terminal resolution (`resolved_with_basic` /
`resolved_with_ai`); a terminally resolved ticket is rejected with an
"already closed" reply and no change. -/
theorem manual_assign_overwrites (cfg : BotConfig) (db : Db) (idArg : String)
    (nameArgs : List String) (callId : Int) (eng : Engineer) (details : Call)
    (hargs : nameArgs ≠ [])
    (hid : pyIntToken idArg = some callId)
    (hname : ((pyStrip (joinWith [' '] (nameArgs.map String.toList))).asString == "") = false)
    (hfind : find_engineer cfg
      (pyStrip (joinWith [' '] (nameArgs.map String.toList))).asString = some eng)
    (hget : get_call_details db callId = some details)
    (hst1 : (details.status == "resolved_with_basic") = false)
    (hst2 : (details.status == "resolved_with_ai") = false) :
    (get_call_details (assign_call cfg db cfg.manager_chat_id (idArg :: nameArgs)).db
        callId).map (·.assigned_engineer) = some (some eng.name)
    ∧ (get_call_details (assign_call cfg db cfg.manager_chat_id (idArg :: nameArgs)).db
        callId).map (·.status) = some "escalated_to_engineer" := by
  rw [assign_call_success cfg db idArg nameArgs callId eng details hargs hid hname hfind
    hget hst1 hst2]
  constructor <;> · rw [get_assign_engineer, hget]; rfl

def c3cfg : BotConfig := ⟨99, [⟨"Alpha", 11⟩, ⟨"Beta", 12⟩]⟩

def c3db : Db := ⟨[mkCall 1 "IT" "escalated_to_engineer" (some "Alpha") exDate], [], 2, exDate⟩

/-- C3 witness: ticket 1 was auto-assigned to Alpha; the manager reassigns
it to "beta" (case-insensitive roster match) and it ends assigned to
Beta. -/
theorem manual_assign_overwrites_witness :
    (get_call_details (assign_call c3cfg c3db c3cfg.manager_chat_id ["1", "beta"]).db
        1).map (·.assigned_engineer) = some (some "Beta") :=
  (manual_assign_overwrites c3cfg c3db "1" ["beta"] 1 ⟨"Beta", 12⟩
    (mkCall 1 "IT" "escalated_to_engineer" (some "Alpha") exDate)
    (by decide) (by decide) (by decide) (by decide) (by decide) (by decide) (by decide)).1

def c3closed : Db := ⟨[mkCall 1 "IT" "resolved_with_basic" none exDate], [], 2, exDate⟩

/-- C3 counterexample: the claim promises success "regardless of T's prior
state", but for an existing ticket whose status is `resolved_with_basic`
the manager's assign is rejected with the "already closed" reply and the
ticket never becomes assigned to Beta. -/
theorem manual_assign_closed_cex :
    assign_call c3cfg c3closed 99 ["1", "Beta"]
      = { db := c3closed, replies := ["Энэ дуудлага аль хэдийн хаагдсан байна."] }
    ∧ (get_call_details (assign_call c3cfg c3closed 99 ["1", "Beta"]).db 1).map
        (·.assigned_engineer) ≠ some (some "Beta") := by
  decide

/-- C4 (amended): the documented predecessor order is not enforced by any
storage primitive: the manual `/assign_call` path sets
`escalated_to_engineer` on any existing ticket whose status is not a
terminal resolution, including tickets whose status is not (and never was)
`awaiting_manager`. -/
theorem assign_call_skips_partial_order (cfg : BotConfig) (db : Db) (idArg : String)
    (nameArgs : List String) (callId : Int) (eng : Engineer) (details : Call)
    (hargs : nameArgs ≠ [])
    (hid : pyIntToken idArg = some callId)
    (hname : ((pyStrip (joinWith [' '] (nameArgs.map String.toList))).asString == "") = false)
    (hfind : find_engineer cfg
      (pyStrip (joinWith [' '] (nameArgs.map String.toList))).asString = some eng)
    (hget : get_call_details db callId = some details)
    (hst1 : (details.status == "resolved_with_basic") = false)
    (hst2 : (details.status == "resolved_with_ai") = false)
    (hnotaw : (details.status == "awaiting_manager") = false) :
    details.status ≠ "awaiting_manager"
    ∧ (get_call_details (assign_call cfg db cfg.manager_chat_id (idArg :: nameArgs)).db
        callId).map (·.status) = some "escalated_to_engineer" := by
  refine ⟨by simpa using hnotaw, ?_⟩
  rw [assign_call_success cfg db idArg nameArgs callId eng details hargs hid hname hfind
    hget hst1 hst2]
  rw [get_assign_engineer, hget]
  rfl

def c4wdb : Db := ⟨[mkCall 2 "IT" "ai_guidance_failed" none exDate], [], 3, exDate⟩

/-- C4 witness: a ticket whose status is `ai_guidance_failed` (not
`awaiting_manager`) is driven straight to `escalated_to_engineer` by the
manual assign. -/
theorem assign_call_skips_partial_order_witness :
    (get_call_details (assign_call c3cfg c4wdb c3cfg.manager_chat_id ["2", "Alpha"]).db
        2).map (·.status) = some "escalated_to_engineer" :=
  (assign_call_skips_partial_order c3cfg c4wdb "2" ["Alpha"] 2 ⟨"Alpha", 11⟩
    (mkCall 2 "IT" "ai_guidance_failed" none exDate)
    (by decide) (by decide) (by decide) (by decide) (by decide) (by decide) (by decide)
    (by decide)).2

/-- C4 counterexample: a freshly created ticket (status
`basic_guidance_provided`; its whole history is this one INSERT, so it was
never `awaiting_manager`) is set to `escalated_to_engineer` by the manual
assign path. -/
theorem never_awaiting_manager_cex :
    (get_call_details (create_call (⟨[], [], 1, exDate⟩ : Db) 1000 "A. Bat" "IT"
        "Интернэт сүлжээ" none "guidance").2 1).map (·.status)
      = some "basic_guidance_provided"
    ∧ (get_call_details (assign_call c3cfg
          (create_call (⟨[], [], 1, exDate⟩ : Db) 1000 "A. Bat" "IT" "Интернэт сүлжээ" none
            "guidance").2 99 ["1", "Alpha"]).db 1).map (·.status)
        = some "escalated_to_engineer" := by
  decide

/-! ## Claims C5 and C6: the auto-assign timer -/

/-- The running-minimum scan of Python's `min(..., key=...)`. -/
def foldlMin (loads : List (String × Nat)) (e : Engineer) (t : List Engineer) : Engineer :=
  t.foldl (fun best cand =>
    if loadOf loads cand.name < loadOf loads best.name then cand else best) e

theorem min_by_load_cons (loads : List (String × Nat)) (e : Engineer) (t : List Engineer) :
    min_by_load (e :: t) loads = some (foldlMin loads e t) := rfl

/-- The scan returns the first element achieving the minimal load: the list
splits as `l1 ++ result :: l2` with the result's load ≤ every load and
strictly below every load in the prefix `l1`. -/
theorem foldlMin_spec (loads : List (String × Nat)) :
    ∀ (t : List Engineer) (e : Engineer),
    ∃ l1 l2,
      e :: t = l1 ++ foldlMin loads e t :: l2
      ∧ (∀ x ∈ e :: t, loadOf loads (foldlMin loads e t).name ≤ loadOf loads x.name)
      ∧ (∀ x ∈ l1, loadOf loads (foldlMin loads e t).name < loadOf loads x.name) := by
  intro t
  induction t with
  | nil =>
    intro e
    refine ⟨[], [], rfl, ?_, by simp⟩
    intro x hx
    rcases List.mem_cons.mp hx with rfl | hx'
    · exact Nat.le_refl _
    · simp at hx'
  | cons c t' ih =>
    intro e
    have hfold : foldlMin loads e (c :: t')
        = foldlMin loads (if loadOf loads c.name < loadOf loads e.name then c else e) t' := rfl
    by_cases h : loadOf loads c.name < loadOf loads e.name
    · obtain ⟨l1, l2, hdec, hmin, hstrict⟩ := ih c
      refine ⟨e :: l1, l2, ?_, ?_, ?_⟩
      · rw [hfold, if_pos h, List.cons_append]
        exact congrArg (e :: ·) hdec
      · intro x hx
        rw [hfold, if_pos h]
        rcases List.mem_cons.mp hx with rfl | hx'
        · exact Nat.le_of_lt (Nat.lt_of_le_of_lt (hmin c (List.mem_cons_self c t')) h)
        · exact hmin x hx'
      · intro x hx
        rw [hfold, if_pos h]
        rcases List.mem_cons.mp hx with rfl | hx'
        · exact Nat.lt_of_le_of_lt (hmin c (List.mem_cons_self c t')) h
        · exact hstrict x hx'
    · obtain ⟨l1, l2, hdec, hmin, hstrict⟩ := ih e
      have hle : loadOf loads e.name ≤ loadOf loads c.name := Nat.le_of_not_lt h
      cases l1 with
      | nil =>
        have hr : foldlMin loads e t' = e := by
          have := hdec
          rw [List.nil_append] at this
          exact ((List.cons.injEq _ _ _ _).mp this).1.symm
        refine ⟨[], c :: t', ?_, ?_, by simp⟩
        · rw [hfold, if_neg h, hr, List.nil_append]
        · intro x hx
          rw [hfold, if_neg h, hr]
          rcases List.mem_cons.mp hx with rfl | hx'
          · exact Nat.le_refl _
          · rcases List.mem_cons.mp hx' with rfl | hx''
            · exact hle
            · have := hmin x (List.mem_cons_of_mem e hx'')
              rw [hr] at this
              exact this
      | cons a l1' =>
        have hae : a = e := by
          have := hdec
          rw [List.cons_append] at this
          exact (((List.cons.injEq _ _ _ _).mp this).1).symm
        have hstrict_e : loadOf loads (foldlMin loads e t').name < loadOf loads e.name := by
          have := hstrict a (List.mem_cons_self a l1')
          rw [hae] at this
          exact this
        have ht' : t' = l1' ++ foldlMin loads e t' :: l2 := by
          have := hdec
          rw [List.cons_append] at this
          exact (((List.cons.injEq _ _ _ _).mp this).2)
        refine ⟨e :: c :: l1', l2, ?_, ?_, ?_⟩
        · rw [hfold, if_neg h, List.cons_append, List.cons_append]
          exact congrArg (fun l => e :: c :: l) ht'
        · intro x hx
          rw [hfold, if_neg h]
          rcases List.mem_cons.mp hx with rfl | hx'
          · exact hmin x (List.mem_cons_self x t')
          · rcases List.mem_cons.mp hx' with rfl | hx''
            · exact Nat.le_trans (Nat.le_of_lt hstrict_e) hle
            · exact hmin x (List.mem_cons_of_mem e hx'')
        · intro x hx
          rw [hfold, if_neg h]
          rcases List.mem_cons.mp hx with rfl | hx'
          · exact hstrict_e
          · rcases List.mem_cons.mp hx' with rfl | hx''
            · exact Nat.lt_of_lt_of_le hstrict_e hle
            · exact hstrict x (List.mem_cons_of_mem a hx'')

theorem unassigned_of_not_assigned (db : Db) (callId : Int) (c : Call)
    (hget : get_call_details db callId = some c)
    (hun : is_call_assigned db callId = false) :
    unassignedField c.assigned_engineer = true := by
  unfold get_call_details at hget
  unfold is_call_assigned at hun
  rw [hget] at hun
  cases hce : c.assigned_engineer with
  | none => rfl
  | some s =>
    have hun' : (match c.assigned_engineer with
        | none => false
        | some s => s != "") = false := hun
    rw [hce] at hun'
    have hs : s = "" := by simpa using hun'
    simp [unassignedField, hs]

/-- The general selection fact behind C5. -/
theorem auto_assign_min_load_general (cfg : BotConfig) (db : Db) (callId : Int) (c : Call)
    (hro : cfg.engineers ≠ [])
    (hun : is_call_assigned db callId = false)
    (hget : get_call_details db callId = some c) :
    ∃ sel l1 l2,
      min_by_load cfg.engineers (engineer_loads db (cfg.engineers.map (·.name))) = some sel
      ∧ cfg.engineers = l1 ++ sel :: l2
      ∧ (∀ e ∈ cfg.engineers,
          loadOf (engineer_loads db (cfg.engineers.map (·.name))) sel.name
            ≤ loadOf (engineer_loads db (cfg.engineers.map (·.name))) e.name)
      ∧ (∀ e ∈ l1,
          loadOf (engineer_loads db (cfg.engineers.map (·.name))) sel.name
            < loadOf (engineer_loads db (cfg.engineers.map (·.name))) e.name)
      ∧ get_call_details (auto_assign_job cfg db (some callId)).db callId
          = some { c with assigned_engineer := some sel.name,
                          status := "escalated_to_engineer" } := by
  have hunf : unassignedField c.assigned_engineer = true :=
    unassigned_of_not_assigned db callId c hget hun
  have hmem : c ∈ db.calls := List.mem_of_find?_eq_some hget
  have hcid : c.id = callId := by simpa using List.find?_some hget
  cases heng : cfg.engineers with
  | nil => exact absurd heng hro
  | cons e t =>
    set L := engineer_loads db ((e :: t).map (·.name)) with hL
    obtain ⟨l1, l2, hdec, hmin, hstrict⟩ := foldlMin_spec L t e
    have h1 : (assign_engineer_if_unassigned db callId (foldlMin L e t).name).1 = true :=
      (aeiu_true_iff db callId _).mpr ⟨c, hmem, hcid, hunf⟩
    have h2 : get_call_details
        (assign_engineer_if_unassigned db callId (foldlMin L e t).name).2 callId
        = some { c with
            assigned_engineer := some (foldlMin L e t).name,
            status := "escalated_to_engineer" } := by
      rw [get_assign_if_unassigned, hget]
      simp [hunf]
    have h3 : get_call_details (auto_assign_job cfg db (some callId)).db callId
        = some { c with
            assigned_engineer := some (foldlMin L e t).name,
            status := "escalated_to_engineer" } := by
      simp only [auto_assign_job, heng, List.isEmpty_cons, Bool.false_eq_true, if_false, hun,
        min_by_load_cons, ← hL, h1, Bool.not_true, h2]
    exact ⟨foldlMin L e t, l1, l2, min_by_load_cons L e t, hdec, hmin, hstrict, h3⟩

/-- C5: when the timer fires for an existing, still-unassigned ticket and
the roster is non-empty, the job assigns the FIRST roster engineer whose
load today (tickets created today already assigned to them — the ticket
being assigned is unassigned and so not counted) is minimal: the roster
splits as `l1 ++ sel :: l2` with `sel`'s load ≤ every load and strictly
below every load in the prefix.  On the spec's examples, loads
{A:2, B:0, C:1} select B, and {A:1, B:1} select A. -/
theorem auto_assign_selects_min :
    (∀ (cfg : BotConfig) (db : Db) (callId : Int) (c : Call),
      cfg.engineers ≠ [] →
      is_call_assigned db callId = false →
      get_call_details db callId = some c →
      ∃ sel l1 l2,
        min_by_load cfg.engineers (engineer_loads db (cfg.engineers.map (·.name))) = some sel
        ∧ cfg.engineers = l1 ++ sel :: l2
        ∧ (∀ e ∈ cfg.engineers,
            loadOf (engineer_loads db (cfg.engineers.map (·.name))) sel.name
              ≤ loadOf (engineer_loads db (cfg.engineers.map (·.name))) e.name)
        ∧ (∀ e ∈ l1,
            loadOf (engineer_loads db (cfg.engineers.map (·.name))) sel.name
              < loadOf (engineer_loads db (cfg.engineers.map (·.name))) e.name)
        ∧ get_call_details (auto_assign_job cfg db (some callId)).db callId
            = some { c with assigned_engineer := some sel.name,
                            status := "escalated_to_engineer" })
    ∧ min_by_load [⟨"A", 1⟩, ⟨"B", 2⟩, ⟨"C", 3⟩] [("A", 2), ("B", 0), ("C", 1)]
        = some ⟨"B", 2⟩
    ∧ min_by_load [⟨"A", 1⟩, ⟨"B", 2⟩] [("A", 1), ("B", 1)] = some ⟨"A", 1⟩ :=
  ⟨auto_assign_min_load_general, by decide, by decide⟩

def c5cfg : BotConfig := ⟨99, [⟨"Alpha", 11⟩, ⟨"Beta", 12⟩, ⟨"Gamma", 13⟩]⟩

def c5db : Db :=
  ⟨[mkCall 1 "IT" "escalated_to_engineer" (some "Alpha") exDate,
    mkCall 2 "IT" "escalated_to_engineer" (some "Alpha") exDate,
    mkCall 3 "IT" "escalated_to_engineer" (some "Gamma") exDate,
    mkCall 4 "HR" "awaiting_manager" none exDate], [], 5, exDate⟩

/-- C5 witness: with today's loads Alpha:2, Beta:0, Gamma:1 the timer
assigns ticket 4 to some minimal-load first engineer (it is Beta). -/
theorem auto_assign_selects_min_witness :
    ∃ sel l1 l2,
      min_by_load c5cfg.engineers (engineer_loads c5db (c5cfg.engineers.map (·.name)))
        = some sel
      ∧ c5cfg.engineers = l1 ++ sel :: l2
      ∧ (∀ e ∈ c5cfg.engineers,
          loadOf (engineer_loads c5db (c5cfg.engineers.map (·.name))) sel.name
            ≤ loadOf (engineer_loads c5db (c5cfg.engineers.map (·.name))) e.name)
      ∧ (∀ e ∈ l1,
          loadOf (engineer_loads c5db (c5cfg.engineers.map (·.name))) sel.name
            < loadOf (engineer_loads c5db (c5cfg.engineers.map (·.name))) e.name)
      ∧ get_call_details (auto_assign_job c5cfg c5db (some 4)).db 4
          = some { mkCall 4 "HR" "awaiting_manager" none exDate with
                   assigned_engineer := some sel.name,
                   status := "escalated_to_engineer" } :=
  auto_assign_selects_min.1 c5cfg c5db 4 (mkCall 4 "HR" "awaiting_manager" none exDate)
    (by decide) (by decide) (by decide)

/-- C6: if the timer handler runs for a ticket that is already assigned, it
returns with no database change, no manager message, no engineer message,
and no scheduled or removed jobs. -/
theorem auto_assign_noop_when_assigned (cfg : BotConfig) (db : Db) (callId : Int)
    (h : is_call_assigned db callId = true) :
    auto_assign_job cfg db (some callId) = { db := db } := by
  by_cases he : cfg.engineers.isEmpty <;> simp [auto_assign_job, he, h]

/-- C6 witness: ticket 1 is already assigned (e.g. manually); firing the
timer afterwards changes nothing and notifies nobody. -/
theorem auto_assign_noop_when_assigned_witness :
    auto_assign_job c3cfg c3db (some 1) = { db := c3db } :=
  auto_assign_noop_when_assigned c3cfg c3db 1 (by decide)

/-! ## Claim C7: the explicit date-range parser -/

/-- C7 (amended): the parser accepts `'YYYY-MM-DD - YYYY-MM-DD'` strings
with start ≤ end, returning that start and end; it also accepts two
strptime-lenient variants — an en-dash separator (normalized to a hyphen
before splitting) and non-zero-padded month/day — and it rejects
malformed text such as "not a date" and every inverted range: any
accepted pair satisfies start ≤ end. -/
theorem parse_date_range_behavior :
    parse_date_range "2024-05-01 - 2024-05-31" = some (⟨2024, 5, 1⟩, ⟨2024, 5, 31⟩)
    ∧ parse_date_range "2024-05-31 - 2024-05-01" = none
    ∧ parse_date_range "not a date" = none
    ∧ parse_date_range "2024-5-1 - 2024-5-31" = some (⟨2024, 5, 1⟩, ⟨2024, 5, 31⟩)
    ∧ ∀ (text : String) (s e : Date),
        parse_date_range text = some (s, e) → dateLe s e = true := by
  refine ⟨by decide, by decide, by decide, by decide, ?_⟩
  intro text s e h
  simp only [parse_date_range] at h
  split at h
  · split at h
    · split at h
      · exact absurd h (by simp)
      · rename_i hguard
        injection h with hpair
        injection hpair with h1 h2
        subst h1
        subst h2
        exact dateLe_of_not_lt _ _ (by simpa using hguard)
    · exact absurd h (by simp)
  · exact absurd h (by simp)

/-- C7 witness: the canonical example is accepted with the stated bounds,
which indeed satisfy start ≤ end. -/
theorem parse_date_range_behavior_witness :
    dateLe ⟨2024, 5, 1⟩ ⟨2024, 5, 31⟩ = true :=
  parse_date_range_behavior.2.2.2.2 "2024-05-01 - 2024-05-31" ⟨2024, 5, 1⟩ ⟨2024, 5, 31⟩
    (by decide)

/-- C7 counterexample: the claim says the parser accepts EXACTLY strings of
the form `'YYYY-MM-DD - YYYY-MM-DD'`, but the en-dash variant
`"2024-05-01 – 2024-05-31"` — which is not of that form — is accepted too
(the code first replaces en-dashes with hyphens). -/
theorem parse_date_range_endash_cex :
    specCanonicalRangeForm "2024-05-01 – 2024-05-31" = false
    ∧ parse_date_range "2024-05-01 – 2024-05-31" = some (⟨2024, 5, 1⟩, ⟨2024, 5, 31⟩) := by
  decide

/-! ## Claim C8: the report aggregator -/

theorem length_filter_eq_count_map (rows : List Call) (f : Call → String) (k : String) :
    (rows.filter (fun c => f c == k)).length = (rows.map f).count k := by
  rw [List.count_eq_countP, ← List.countP_eq_length_filter]
  rw [List.countP_map]
  rfl

theorem groupCounts_sum (rows : List Call) (f : Call → String) :
    ((groupCounts rows f).map Prod.snd).sum = rows.length := by
  unfold groupCounts
  rw [List.map_map]
  have hcongr : ∀ k ∈ (rows.map f).dedup,
      (Prod.snd ∘ fun k => (k, (rows.filter (fun c => f c == k)).length)) k
        = (fun x => (rows.map f).count x) k := by
    intro k _
    simp only [Function.comp]
    exact length_filter_eq_count_map rows f k
  rw [List.map_congr_left hcongr, List.sum_map_count_dedup_eq_length, List.length_map]

theorem groupCounts_mem (rows : List Call) (f : Call → String) (d : String) (n : Nat)
    (h : (d, n) ∈ groupCounts rows f) :
    n = (rows.filter (fun c => f c == d)).length := by
  unfold groupCounts at h
  obtain ⟨k, _, hkeq⟩ := List.mem_map.mp h
  injection hkeq with h1 h2
  subst h1
  subst h2
  rfl

/-- C8: `summary_between` counts exactly the tickets whose creation date
lies in the inclusive range: the total is the number of such tickets, each
grouping's counts sum to the total, each department bucket counts exactly
the in-range tickets of that department, and a range disjoint from every
ticket's creation date yields zero everywhere. -/
theorem summary_between_spec (db : Db) (s e : Date) :
    (summary_between db s e).total = (db.calls.filter (inCreatedRange s e)).length
    ∧ ((summary_between db s e).by_department.map Prod.snd).sum = (summary_between db s e).total
    ∧ ((summary_between db s e).by_issue.map Prod.snd).sum = (summary_between db s e).total
    ∧ ((summary_between db s e).statuses.map Prod.snd).sum = (summary_between db s e).total
    ∧ (∀ d n, (d, n) ∈ (summary_between db s e).by_department →
        n = (db.calls.filter (fun c => c.department == d && inCreatedRange s e c)).length)
    ∧ ((∀ c ∈ db.calls, inCreatedRange s e c = false) →
        (summary_between db s e).total = 0
        ∧ (summary_between db s e).by_department = []
        ∧ (summary_between db s e).by_issue = []
        ∧ (summary_between db s e).statuses = []) := by
  refine ⟨rfl, groupCounts_sum _ _, groupCounts_sum _ _, groupCounts_sum _ _, ?_, ?_⟩
  · intro d n h
    have := groupCounts_mem _ _ _ _ h
    rw [this, List.filter_filter]
  · intro h
    have hnil : db.calls.filter (inCreatedRange s e) = [] :=
      List.filter_eq_nil_iff.mpr (fun c hc => by simp [h c hc])
    refine ⟨?_, ?_, ?_, ?_⟩ <;> simp [summary_between, hnil, groupCounts]

def c8db : Db :=
  ⟨[mkCall 1 "IT" "resolved_with_basic" none exDate,
    mkCall 2 "IT" "escalated_to_engineer" (some "Alpha") exDate,
    mkCall 3 "HR" "resolved_with_ai" none exDate], [], 4, exDate⟩

/-- C8 witness: the spec's three-ticket scenario — departments IT, IT, HR
created the same day — yields department counts IT:2, HR:1 for a covering
range, and the disjoint June range yields a zero total. -/
theorem summary_between_spec_witness :
    (summary_between c8db ⟨2024, 5, 1⟩ ⟨2024, 5, 31⟩).by_department = [("IT", 2), ("HR", 1)]
    ∧ (summary_between c8db ⟨2024, 6, 1⟩ ⟨2024, 6, 30⟩).total = 0 :=
  ⟨by decide,
   ((summary_between_spec c8db ⟨2024, 6, 1⟩ ⟨2024, 6, 30⟩).2.2.2.2.2 (by decide)).1⟩

/-! ## Claim C9: manager-only commands -/

/-- C9: a caller other than the configured manager gets the fixed
permission-denied reply from each of report, `/assign_call` and
`/add_employee`, and the database (tickets and staff directory alike) is
returned unchanged with no other effect. -/
theorem manager_only_denied (cfg : BotConfig) (db : Db) (callerId : Int) (args : List String)
    (h : callerId ≠ cfg.manager_chat_id) :
    report cfg db callerId = { db := db, replies := [permission_denied_msg] }
    ∧ assign_call cfg db callerId args = { db := db, replies := [permission_denied_msg] }
    ∧ add_employee_cmd cfg db callerId args = { db := db, replies := [permission_denied_msg] } := by
  have hb : (callerId != cfg.manager_chat_id) = true := bne_iff_ne.mpr h
  refine ⟨?_, ?_, ?_⟩ <;> simp [report, assign_call, add_employee_cmd, hb]

/-- C9 witness: caller 5 (not the manager, 99) is denied on `/assign_call`
and nothing changes. -/
theorem manager_only_denied_witness :
    assign_call c3cfg c3db 5 ["1", "Beta"] = { db := c3db, replies := [permission_denied_msg] } :=
  (manager_only_denied c3cfg c3db 5 ["1", "Beta"] (by decide)).2.1

/-! ## Claim C10: the working-hours gate on `/start` -/

/-- C10 (code bug): the working-hours half of the claim is real — `/start`
checks `_within_working_hours` first, and every out-of-hours invocation
ends immediately with the out-of-hours reply, no conversation state and an
untouched database.  But no in-hours invocation can proceed to identity
capture: the branch's first step reads `self._config.employee_codes`
(handlers.py:155) and the repository's frozen `BotConfig` dataclass
(config.py:25-34) defines no such field, so the read raises
`AttributeError` before any identity prompt — e.g. at local time 10:00.
(`bot/__init__.py` likewise imports a nonexistent `config.Employee`:
handlers.py expects a config revision config.py does not contain.) -/
theorem start_working_hours_code_bug (cfg : BotConfig) (db : Db) (now : Nat) :
    start cfg db now
      = (if within_working_hours now then Except.error start_attribute_error_msg
         else Except.ok { db := db, replies := [out_of_hours_msg], nextState := none })
    ∧ start cfg db (10 * 3600) = Except.error start_attribute_error_msg
    ∧ start cfg db (8 * 3600)
        = Except.ok { db := db, replies := [out_of_hours_msg], nextState := none }
    ∧ (within_working_hours now = true ↔ (9 * 3600 ≤ now ∧ now < 18 * 3600)) := by
  refine ⟨?_, by simp [start, within_working_hours], by simp [start, within_working_hours],
    by simp [within_working_hours]⟩
  by_cases h : within_working_hours now = true
  · simp [start, h]
  · have h' : within_working_hours now = false := by simpa using h
    simp [start, h']

end UIABot
